import Mathlib

/-!
# Verification of the upload relay server (`src/server.js`)

Shallow embedding of the server's three cores:

* the chunked Dropbox transfer engine `uploadToDropbox` (src/server.js:143-269),
* the token manager `refreshAccessToken` (src/server.js:69-103),
* the relay orchestrator `app.post("/upload")` (src/server.js:272-372).

File contents and remote bodies are modelled by their byte counts; the remote
service is modelled by an environment giving, for each call the transfer makes
(indexed by arrival order), whether it returns a success status, plus the
session id returned by a session-start call.  The local filesystem is a list of
existing paths.  All definitions mirror the JavaScript source; theorems settle
the frozen claims C1-C10.
-/

namespace UploadRelay

/-- `CHUNK_SIZE` constant of `uploadToDropbox` (src/server.js:144): 100 MiB. -/
def CHUNK_SIZE : Nat := 100 * 1024 * 1024

/-- The sizes of the buffers yielded by
`fs.createReadStream(filePath, { highWaterMark: C })` over a file of `S` bytes
(src/server.js:181-183): full buffers of `C` bytes, then the (shorter) final
buffer.  The `C = 0` guard is unreachable in the server (`C = CHUNK_SIZE`);
it only makes the recursion total. -/
def chunks (C S : Nat) : List Nat :=
  if S = 0 then []
  else if S ≤ C ∨ C = 0 then [S]
  else C :: chunks C (S - C)
termination_by S
decreasing_by
  simp_wf
  omega

/-- One remote call made by `uploadToDropbox`, carrying the arguments the
server puts in the request (payloads abstracted to byte counts). -/
inductive DropboxCall where
  /-- `POST /2/files/upload` with the full file as body (src/server.js:155). -/
  | upload (path : String) (payload : Nat)
  /-- `POST /2/files/upload_session/start` with the first chunk (src/server.js:195). -/
  | sessionStart (payload : Nat)
  /-- `POST /2/files/upload_session/append_v2` with cursor `{session_id, offset}`
  (src/server.js:217-231). -/
  | sessionAppend (sessionId : String) (offset : Nat) (payload : Nat)
  /-- `POST /2/files/upload_session/finish` with cursor `{session_id, offset}`
  and the commit path (src/server.js:242-261). -/
  | sessionFinish (sessionId : Option String) (offset : Nat) (path : String)
deriving DecidableEq, Repr

/-- The remote service as seen by one transfer: `ok n` is whether the `n`-th
call the transfer issues gets a success status (`response.ok`), and
`sessionId` is the `session_id` the start call returns. -/
structure RemoteEnv where
  ok : Nat → Bool
  sessionId : String

def isUpload : DropboxCall → Bool
  | .upload _ _ => true
  | _ => false

def isStart : DropboxCall → Bool
  | .sessionStart _ => true
  | _ => false

def isAppend : DropboxCall → Bool
  | .sessionAppend _ _ _ => true
  | _ => false

def isFinish : DropboxCall → Bool
  | .sessionFinish _ _ _ => true
  | _ => false

/-- The `offset` field a call carries in its `Dropbox-API-Arg` cursor
(calls without a cursor carry none; we read `0`). -/
def callOffset : DropboxCall → Nat
  | .sessionAppend _ off _ => off
  | .sessionFinish _ off _ => off
  | _ => 0

/-- The number of payload bytes a call carries in its body. -/
def callPayload : DropboxCall → Nat
  | .upload _ p => p
  | .sessionStart p => p
  | .sessionAppend _ _ p => p
  | .sessionFinish _ _ _ => 0

/-- Dropbox destination path `${DROPBOX_CONFIG.uploadPath}/${fileName}`
(src/server.js:146 with uploadPath `/test`, src/server.js:20). -/
def dropboxPathOf (fileName : String) : String := "/test/" ++ fileName

/-- The `for await (const chunk of fileStream)` loop of `uploadToDropbox`
(src/server.js:188-238), one step per chunk: no session id yet means a
session-start call, otherwise an append call with the current offset; a
non-ok response throws, stopping the loop.  Returns the calls issued (in
order) and, on success, the session id and final offset.  `idx` is the index
of the next call in the whole transfer. -/
def uploadLoop (env : RemoteEnv) :
    List Nat → Option String → Nat → Nat →
    List DropboxCall × Except String (Option String × Nat)
  | [], sid, off, _ => ([], .ok (sid, off))
  | c :: rest, none, off, idx =>
    let call := DropboxCall.sessionStart c
    if env.ok idx then
      let r := uploadLoop env rest (some env.sessionId) (off + c) (idx + 1)
      (call :: r.1, r.2)
    else
      ([call], .error "Erreur démarrage session")
  | c :: rest, some s, off, idx =>
    let call := DropboxCall.sessionAppend s off c
    if env.ok idx then
      let r := uploadLoop env rest (some s) (off + c) (idx + 1)
      (call :: r.1, r.2)
    else
      ([call], .error "Erreur append chunk")

/-- The tail of the session path of `uploadToDropbox` (src/server.js:240-267):
given the loop's outcome, either re-throw its error, or issue the finish
call at the accumulated offset and fail if it gets a non-ok status. -/
def finishStep (env : RemoteEnv) (fileName : String) :
    List DropboxCall × Except String (Option String × Nat) →
    List DropboxCall × Except String Unit
  | (calls, .error e) => (calls, .error e)
  | (calls, .ok (sid, off)) =>
    if env.ok calls.length then
      (calls ++ [DropboxCall.sessionFinish sid off (dropboxPathOf fileName)], .ok ())
    else
      (calls ++ [DropboxCall.sessionFinish sid off (dropboxPathOf fileName)],
       .error "Erreur finalisation")

/-- `uploadToDropbox(filePath, fileName, token)` (src/server.js:143-269),
abstracting the file to its size.  Returns the remote calls issued, in order,
and success or the thrown error message.  `fileSize <= CHUNK_SIZE` does one
single-shot upload call; otherwise the session loop runs over the stream's
chunks and a finish call commits at the final offset.  (The bearer token is
carried on every call but plays no role in control flow, so it is not
modelled.) -/
def uploadToDropbox (env : RemoteEnv) (fileSize : Nat) (fileName : String) :
    List DropboxCall × Except String Unit :=
  if fileSize ≤ CHUNK_SIZE then
    if env.ok 0 then
      ([DropboxCall.upload (dropboxPathOf fileName) fileSize], .ok ())
    else
      ([DropboxCall.upload (dropboxPathOf fileName) fileSize], .error "Erreur Dropbox")
  else
    finishStep env fileName (uploadLoop env (chunks CHUNK_SIZE fileSize) none 0 0)

/-! ## Chunking lemmas -/

theorem chunks_sum (C S : Nat) : (chunks C S).sum = S := by
  induction S using Nat.strong_induction_on with
  | _ S ih =>
    rw [chunks]
    split
    · simp [*]
    · split
      · simp
      · rename_i h1 h2
        push_neg at h2
        have hC : 0 < C := Nat.pos_of_ne_zero h2.2
        have hS : C < S := h2.1
        have := ih (S - C) (by omega)
        simp [this]
        omega

theorem chunks_pos (C S : Nat) : ∀ c ∈ chunks C S, 0 < c := by
  induction S using Nat.strong_induction_on with
  | _ S ih =>
    rw [chunks]
    split
    · simp
    · split
      · rename_i h1 _
        simp
        omega
      · rename_i h1 h2
        push_neg at h2
        intro c hc
        simp at hc
        rcases hc with hc | hc
        · omega
        · exact ih (S - C) (by omega) c hc

theorem chunks_length (C S : Nat) (hC : 0 < C) (hS : 0 < S) :
    (chunks C S).length = (S + C - 1) / C := by
  induction S using Nat.strong_induction_on with
  | _ S ih =>
    rw [chunks]
    split
    · omega
    · split
      · rename_i h1 h2
        have hSC : S ≤ C := by
          rcases h2 with h | h
          · exact h
          · omega
        simp
        symm
        apply Nat.div_eq_of_lt_le
        · simpa using Nat.le_add_left C (S - 1) |>.trans_eq (by omega)
        · omega
      · rename_i h1 h2
        push_neg at h2
        have hCS : C < S := h2.1
        have ihr := ih (S - C) (by omega) (by omega)
        simp [ihr]
        have : S + C - 1 = (S - C + C - 1) + C := by omega
        rw [this, Nat.add_div_right _ hC]

theorem chunks_of_gt (C S : Nat) (hC : 0 < C) (hS : C < S) :
    chunks C S = C :: chunks C (S - C) := by
  rw [chunks]
  have h0 : ¬ S = 0 := by omega
  have h1 : ¬ (S ≤ C ∨ C = 0) := by omega
  simp [h0, h1]

theorem chunks_ne_nil (C S : Nat) (hS : 0 < S) : chunks C S ≠ [] := by
  rw [chunks]
  split
  · omega
  · split
    · simp
    · simp

/-! ## The session loop's trace under successful responses -/

/-- The sequence of append calls the loop issues for chunk sizes `cs`, session
id `s` and starting offset `off`: reference description of the loop's
else-branch trace. -/
def appendTrace (s : String) : Nat → List Nat → List DropboxCall
  | _, [] => []
  | off, c :: rest => DropboxCall.sessionAppend s off c :: appendTrace s (off + c) rest

theorem appendTrace_length (s : String) (off : Nat) (cs : List Nat) :
    (appendTrace s off cs).length = cs.length := by
  induction cs generalizing off with
  | nil => rfl
  | cons c rest ih => simp [appendTrace, ih]

theorem appendTrace_map_payload (s : String) (off : Nat) (cs : List Nat) :
    (appendTrace s off cs).map callPayload = cs := by
  induction cs generalizing off with
  | nil => rfl
  | cons c rest ih => simp [appendTrace, callPayload, ih]

theorem appendTrace_all_append (s : String) (off : Nat) (cs : List Nat) :
    ∀ x ∈ appendTrace s off cs, isAppend x = true := by
  induction cs generalizing off with
  | nil => simp [appendTrace]
  | cons c rest ih =>
    intro x hx
    simp [appendTrace] at hx
    rcases hx with hx | hx
    · simp [hx, isAppend]
    · exact ih _ x hx

theorem appendTrace_get (s : String) (cs : List Nat) :
    ∀ (off k : Nat) (hk : k < cs.length),
      (appendTrace s off cs).get ⟨k, by rw [appendTrace_length]; exact hk⟩ =
        DropboxCall.sessionAppend s (off + (cs.take k).sum) (cs.get ⟨k, hk⟩) := by
  induction cs with
  | nil => intro off k hk; simp at hk
  | cons c rest ih =>
    intro off k hk
    cases k with
    | zero => simp [appendTrace]
    | succ k' =>
      have hk' : k' < rest.length := by simpa using hk
      have h2 := ih (off + c) k' hk'
      have hlt : k' < (appendTrace s (off + c) rest).length := by
        rw [appendTrace_length]; exact hk'
      show (appendTrace s (off + c) rest).get ⟨k', hlt⟩ =
        DropboxCall.sessionAppend s (off + (c + (List.take k' rest).sum))
          (rest.get ⟨k', hk'⟩)
      rw [h2]
      congr 1
      omega

/-- When every response in the window is a success, the loop with an open
session id `s` appends every chunk in order and returns the summed offset. -/
theorem uploadLoop_some (env : RemoteEnv) (s : String) (cs : List Nat) :
    ∀ (off idx : Nat), (∀ m, m < cs.length → env.ok (idx + m) = true) →
      uploadLoop env cs (some s) off idx =
        (appendTrace s off cs, .ok (some s, off + cs.sum)) := by
  induction cs with
  | nil => intro off idx _; simp [uploadLoop, appendTrace]
  | cons c rest ih =>
    intro off idx h
    have h0 : env.ok idx = true := by simpa using h 0 (by simp)
    have hrest : ∀ m, m < rest.length → env.ok (idx + 1 + m) = true := by
      intro m hm
      have := h (m + 1) (by simpa using Nat.succ_lt_succ hm)
      simpa [Nat.add_assoc, Nat.add_comm 1 m] using this
    simp [uploadLoop, h0, ih (off + c) (idx + 1) hrest, appendTrace]
    omega

/-- When every response in the window is a success, the loop started with no
session id issues one start call for the first chunk and appends the rest. -/
theorem uploadLoop_none (env : RemoteEnv) (c : Nat) (rest : List Nat)
    (off idx : Nat) (h : ∀ m, m < (c :: rest).length → env.ok (idx + m) = true) :
    uploadLoop env (c :: rest) none off idx =
      (DropboxCall.sessionStart c :: appendTrace env.sessionId (off + c) rest,
       .ok (some env.sessionId, off + (c + rest.sum))) := by
  have h0 : env.ok idx = true := by simpa using h 0 (by simp)
  have hrest : ∀ m, m < rest.length → env.ok (idx + 1 + m) = true := by
    intro m hm
    have := h (m + 1) (by simpa using Nat.succ_lt_succ hm)
    simpa [Nat.add_assoc, Nat.add_comm 1 m] using this
  simp [uploadLoop, h0, uploadLoop_some env env.sessionId rest (off + c) (idx + 1) hrest]
  omega

/-! ## The session loop under arbitrary responses (abort / no-retry behaviour) -/

theorem uploadLoop_length_le (env : RemoteEnv) (cs : List Nat) :
    ∀ (sid : Option String) (off idx : Nat),
      (uploadLoop env cs sid off idx).1.length ≤ cs.length := by
  induction cs with
  | nil => intro sid off idx; cases sid <;> simp [uploadLoop]
  | cons c rest ih =>
    intro sid off idx
    cases sid <;> simp only [uploadLoop] <;> split <;>
      simp [Nat.succ_le_succ, ih]

/-- Every call the loop issues, except possibly the last, got a success
status: after a failed call the loop makes no further call. -/
theorem uploadLoop_calls_ok (env : RemoteEnv) (cs : List Nat) :
    ∀ (sid : Option String) (off idx m : Nat),
      m + 1 < (uploadLoop env cs sid off idx).1.length →
      env.ok (idx + m) = true := by
  induction cs with
  | nil => intro sid off idx m h; cases sid <;> simp [uploadLoop] at h
  | cons c rest ih =>
    intro sid off idx m h
    cases sid with
    | none =>
      by_cases h0 : env.ok idx = true
      · simp only [uploadLoop, h0, if_true] at h
        cases m with
        | zero => simpa using h0
        | succ m' =>
          have := ih (some env.sessionId) (off + c) (idx + 1) m' (by simpa using h)
          simpa [Nat.add_assoc, Nat.add_comm 1 m'] using this
      · simp [uploadLoop, h0] at h
    | some s =>
      by_cases h0 : env.ok idx = true
      · simp only [uploadLoop, h0, if_true] at h
        cases m with
        | zero => simpa using h0
        | succ m' =>
          have := ih (some s) (off + c) (idx + 1) m' (by simpa using h)
          simpa [Nat.add_assoc, Nat.add_comm 1 m'] using this
      · simp [uploadLoop, h0] at h

/-- If the loop failed, the last call it issued is the one that got the
non-success status. -/
theorem uploadLoop_error_last (env : RemoteEnv) (cs : List Nat) :
    ∀ (sid : Option String) (off idx : Nat) (e : String),
      (uploadLoop env cs sid off idx).2 = .error e →
      0 < (uploadLoop env cs sid off idx).1.length ∧
      env.ok (idx + (uploadLoop env cs sid off idx).1.length - 1) = false := by
  induction cs with
  | nil => intro sid off idx e h; cases sid <;> simp [uploadLoop] at h
  | cons c rest ih =>
    intro sid off idx e h
    cases sid with
    | none =>
      by_cases h0 : env.ok idx = true
      · simp only [uploadLoop, h0, if_true] at h ⊢
        have := ih (some env.sessionId) (off + c) (idx + 1) e h
        simp only [List.length_cons]
        constructor
        · omega
        · have heq : idx + ((uploadLoop env rest (some env.sessionId) (off + c) (idx + 1)).1.length + 1) - 1 =
              idx + 1 + (uploadLoop env rest (some env.sessionId) (off + c) (idx + 1)).1.length - 1 := by
            omega
          rw [heq]
          exact this.2
      · simp only [Bool.not_eq_true] at h0
        simp [uploadLoop, h0]
    | some s =>
      by_cases h0 : env.ok idx = true
      · simp only [uploadLoop, h0, if_true] at h ⊢
        have := ih (some s) (off + c) (idx + 1) e h
        simp only [List.length_cons]
        constructor
        · omega
        · have heq : idx + ((uploadLoop env rest (some s) (off + c) (idx + 1)).1.length + 1) - 1 =
              idx + 1 + (uploadLoop env rest (some s) (off + c) (idx + 1)).1.length - 1 := by
            omega
          rw [heq]
          exact this.2
      · simp only [Bool.not_eq_true] at h0
        simp [uploadLoop, h0]

/-- If the loop succeeded, every chunk produced exactly one call and every
one of those calls got a success status. -/
theorem uploadLoop_ok_all (env : RemoteEnv) (cs : List Nat) :
    ∀ (sid : Option String) (off idx : Nat) (v : Option String × Nat),
      (uploadLoop env cs sid off idx).2 = .ok v →
      (uploadLoop env cs sid off idx).1.length = cs.length ∧
      ∀ m, m < cs.length → env.ok (idx + m) = true := by
  induction cs with
  | nil => intro sid off idx v _; cases sid <;> simp [uploadLoop]
  | cons c rest ih =>
    intro sid off idx v h
    cases sid with
    | none =>
      by_cases h0 : env.ok idx = true
      · simp only [uploadLoop, h0, if_true] at h ⊢
        have := ih (some env.sessionId) (off + c) (idx + 1) v h
        refine ⟨by simp [this.1], ?_⟩
        intro m hm
        cases m with
        | zero => simpa using h0
        | succ m' =>
          have := this.2 m' (by simpa using hm)
          simpa [Nat.add_assoc, Nat.add_comm 1 m'] using this
      · simp [uploadLoop, h0] at h
    | some s =>
      by_cases h0 : env.ok idx = true
      · simp only [uploadLoop, h0, if_true] at h ⊢
        have := ih (some s) (off + c) (idx + 1) v h
        refine ⟨by simp [this.1], ?_⟩
        intro m hm
        cases m with
        | zero => simpa using h0
        | succ m' =>
          have := this.2 m' (by simpa using hm)
          simpa [Nat.add_assoc, Nat.add_comm 1 m'] using this
      · simp [uploadLoop, h0] at h

/-- The environment with every response a success (and the same session id). -/
def allOkEnv (sid : String) : RemoteEnv := ⟨fun _ => true, sid⟩

/-- The calls the loop issues under any environment are an initial segment of
the calls it issues when every response succeeds: a failure truncates the
sequence, it never reorders, repeats or retries a call. -/
theorem uploadLoop_prefix (env : RemoteEnv) (cs : List Nat) :
    ∀ (sid : Option String) (off idx : Nat),
      (uploadLoop env cs sid off idx).1 <+:
        (uploadLoop (allOkEnv env.sessionId) cs sid off idx).1 := by
  induction cs with
  | nil => intro sid off idx; cases sid <;> simp [uploadLoop]
  | cons c rest ih =>
    intro sid off idx
    cases sid with
    | none =>
      by_cases h0 : env.ok idx = true
      · simp only [uploadLoop, h0, if_true, allOkEnv]
        exact List.cons_prefix_cons.mpr ⟨rfl, ih (some env.sessionId) (off + c) (idx + 1)⟩
      · simp only [Bool.not_eq_true] at h0
        simp only [uploadLoop, h0, allOkEnv, if_true, if_false, Bool.false_eq_true]
        exact List.cons_prefix_cons.mpr ⟨rfl, List.nil_prefix⟩
    | some s =>
      by_cases h0 : env.ok idx = true
      · simp only [uploadLoop, h0, if_true, allOkEnv]
        exact List.cons_prefix_cons.mpr ⟨rfl, ih (some s) (off + c) (idx + 1)⟩
      · simp only [Bool.not_eq_true] at h0
        simp only [uploadLoop, h0, allOkEnv, if_true, if_false, Bool.false_eq_true]
        exact List.cons_prefix_cons.mpr ⟨rfl, List.nil_prefix⟩

/-! ## Helper facts about call classification -/

theorem isAppend_elim {x : DropboxCall} (h : isAppend x = true) :
    ∃ s o p, x = DropboxCall.sessionAppend s o p := by
  cases x <;> simp [isAppend] at h ⊢

theorem appendTrace_filter_append (s : String) (off : Nat) (cs : List Nat) :
    (appendTrace s off cs).filter isAppend = appendTrace s off cs :=
  List.filter_eq_self.mpr (appendTrace_all_append s off cs)

theorem appendTrace_filter_start (s : String) (off : Nat) (cs : List Nat) :
    (appendTrace s off cs).filter isStart = [] := by
  rw [List.filter_eq_nil_iff]
  intro a ha
  obtain ⟨s', o', p', rfl⟩ := isAppend_elim (appendTrace_all_append s off cs a ha)
  simp [isStart]

theorem appendTrace_filter_finish (s : String) (off : Nat) (cs : List Nat) :
    (appendTrace s off cs).filter isFinish = [] := by
  rw [List.filter_eq_nil_iff]
  intro a ha
  obtain ⟨s', o', p', rfl⟩ := isAppend_elim (appendTrace_all_append s off cs a ha)
  simp [isFinish]

theorem appendTrace_filter_upload (s : String) (off : Nat) (cs : List Nat) :
    (appendTrace s off cs).filter isUpload = [] := by
  rw [List.filter_eq_nil_iff]
  intro a ha
  obtain ⟨s', o', p', rfl⟩ := isAppend_elim (appendTrace_all_append s off cs a ha)
  simp [isUpload]

/-- Partial sums of a list of positive numbers grow strictly. -/
theorem sum_take_lt (cs : List Nat) (hpos : ∀ c ∈ cs, 0 < c) :
    ∀ i j : Nat, i < j → j ≤ cs.length →
      (cs.take i).sum < (cs.take j).sum := by
  induction cs with
  | nil => intro i j hij hj; simp at hj; omega
  | cons c rest ih =>
    intro i j hij hj
    cases j with
    | zero => omega
    | succ j' =>
      cases i with
      | zero =>
        have hc : 0 < c := hpos c (by simp)
        simp only [List.take_zero, List.sum_nil, List.take_succ_cons, List.sum_cons]
        omega
      | succ i' =>
        have := ih (fun x hx => hpos x (by simp [hx])) i' j' (by omega) (by simpa using hj)
        simp only [List.take_succ_cons, List.sum_cons]
        omega

/-- Classification of the head and tail calls under the four filters
(definitional). -/
theorem filter_upload_cons_start (p : Nat) (l : List DropboxCall) :
    (DropboxCall.sessionStart p :: l).filter isUpload = l.filter isUpload := rfl

theorem filter_upload_fin (sid : Option String) (off : Nat) (path : String) :
    ([DropboxCall.sessionFinish sid off path]).filter isUpload = [] := rfl

theorem filter_start_cons_start (p : Nat) (l : List DropboxCall) :
    (DropboxCall.sessionStart p :: l).filter isStart =
      DropboxCall.sessionStart p :: l.filter isStart := rfl

theorem filter_start_fin (sid : Option String) (off : Nat) (path : String) :
    ([DropboxCall.sessionFinish sid off path]).filter isStart = [] := rfl

theorem filter_append_cons_start (p : Nat) (l : List DropboxCall) :
    (DropboxCall.sessionStart p :: l).filter isAppend = l.filter isAppend := rfl

theorem filter_append_fin (sid : Option String) (off : Nat) (path : String) :
    ([DropboxCall.sessionFinish sid off path]).filter isAppend = [] := rfl

theorem filter_finish_cons_start (p : Nat) (l : List DropboxCall) :
    (DropboxCall.sessionStart p :: l).filter isFinish = l.filter isFinish := rfl

theorem filter_finish_fin (sid : Option String) (off : Nat) (path : String) :
    ([DropboxCall.sessionFinish sid off path]).filter isFinish =
      [DropboxCall.sessionFinish sid off path] := rfl

/-- The full behaviour of a successful session upload of a file of size `S`:
one start call with the first chunk, appends for the remaining chunks, one
finish call at the total offset, and overall success. -/
theorem uploadToDropbox_session_trace (env : RemoteEnv) (S : Nat)
    (fileName : String) (hok : ∀ n, env.ok n = true) (hS : CHUNK_SIZE < S) :
    (uploadToDropbox env S fileName).1 =
      (DropboxCall.sessionStart CHUNK_SIZE ::
        appendTrace env.sessionId CHUNK_SIZE (chunks CHUNK_SIZE (S - CHUNK_SIZE))) ++
        [DropboxCall.sessionFinish (some env.sessionId) S (dropboxPathOf fileName)] ∧
    (uploadToDropbox env S fileName).2 = .ok () := by
  have hC : 0 < CHUNK_SIZE := by norm_num [CHUNK_SIZE]
  have hchunks := chunks_of_gt CHUNK_SIZE S hC hS
  have hloop := uploadLoop_none env CHUNK_SIZE (chunks CHUNK_SIZE (S - CHUNK_SIZE))
    0 0 (fun m _ => hok (0 + m))
  have hsum : CHUNK_SIZE + (chunks CHUNK_SIZE (S - CHUNK_SIZE)).sum = S := by
    have h := chunks_sum CHUNK_SIZE S
    rw [hchunks, List.sum_cons] at h
    exact h
  have hpair : uploadToDropbox env S fileName =
      ((DropboxCall.sessionStart CHUNK_SIZE ::
        appendTrace env.sessionId CHUNK_SIZE (chunks CHUNK_SIZE (S - CHUNK_SIZE))) ++
        [DropboxCall.sessionFinish (some env.sessionId) S (dropboxPathOf fileName)],
       .ok ()) := by
    rw [uploadToDropbox, if_neg (by omega), hchunks, hloop]
    rw [finishStep, if_pos (hok _), Nat.zero_add, Nat.zero_add, hsum]
  exact ⟨by rw [hpair], by rw [hpair]⟩

/-- Claim C1 as a predicate on the model: for a transfer of `S` bytes with
chunk constant `CHUNK_SIZE`, a small file gets exactly one single-shot upload
call with the full payload and nothing else, and a large file gets exactly
one start, `ceil(S/CHUNK_SIZE) - 1` appends, and one finish at offset `S`. -/
def C1Spec (env : RemoteEnv) (S : Nat) (fileName : String) : Prop :=
  (uploadToDropbox env S fileName).2 = .ok () ∧
  (S ≤ CHUNK_SIZE →
    (uploadToDropbox env S fileName).1 =
      [DropboxCall.upload (dropboxPathOf fileName) S]) ∧
  (CHUNK_SIZE < S →
    ((uploadToDropbox env S fileName).1.filter isUpload).length = 0 ∧
    ((uploadToDropbox env S fileName).1.filter isStart).length = 1 ∧
    ((uploadToDropbox env S fileName).1.filter isAppend).length =
      (S + CHUNK_SIZE - 1) / CHUNK_SIZE - 1 ∧
    ((uploadToDropbox env S fileName).1.filter isFinish).map callOffset = [S])

/-- C1: for every size `S` and a remote that answers success, the transfer
issues exactly one single-shot call carrying the whole payload when
`S ≤ CHUNK_SIZE` (and no session calls), and exactly one start,
`ceil(S/CHUNK_SIZE) - 1` appends, and one finish whose cumulative offset is
`S` when `S > CHUNK_SIZE` (src/server.js:143-269). -/
theorem c1_upload_call_counts (env : RemoteEnv) (S : Nat) (fileName : String)
    (hok : ∀ n, env.ok n = true) : C1Spec env S fileName := by
  by_cases hS : S ≤ CHUNK_SIZE
  · refine ⟨?_, fun _ => ?_, fun h => absurd h (by omega)⟩ <;>
      · rw [uploadToDropbox, if_pos hS]
        simp only [hok, if_true]
  · have hS' : CHUNK_SIZE < S := by omega
    have htr := uploadToDropbox_session_trace env S fileName hok hS'
    have hC : 0 < CHUNK_SIZE := by norm_num [CHUNK_SIZE]
    refine ⟨htr.2, fun h => absurd h (by omega), fun _ => ?_⟩
    have hlen : (chunks CHUNK_SIZE (S - CHUNK_SIZE)).length =
        (S + CHUNK_SIZE - 1) / CHUNK_SIZE - 1 := by
      have h1 := chunks_length CHUNK_SIZE S hC (by omega)
      rw [chunks_of_gt CHUNK_SIZE S hC hS', List.length_cons] at h1
      omega
    rw [htr.1]
    refine ⟨?_, ?_, ?_, ?_⟩
    · rw [List.filter_append, filter_upload_cons_start,
        appendTrace_filter_upload, filter_upload_fin]
      rfl
    · rw [List.filter_append, filter_start_cons_start,
        appendTrace_filter_start, filter_start_fin]
      rfl
    · rw [List.filter_append, filter_append_cons_start,
        appendTrace_filter_append, filter_append_fin, List.append_nil,
        appendTrace_length, hlen]
    · rw [List.filter_append, filter_finish_cons_start,
        appendTrace_filter_finish, filter_finish_fin, List.nil_append]
      rfl

/-- Cumulative offsets: `offsetsFrom p cs` is the sequence whose `k`-th entry
is `p` plus the sum of the first `k` entries of `cs` — the reference
description of "bytes sent so far" before each append call. -/
def offsetsFrom (p : Nat) : List Nat → List Nat
  | [] => []
  | c :: rest => p :: offsetsFrom (p + c) rest

theorem offsetsFrom_length (p : Nat) (cs : List Nat) :
    (offsetsFrom p cs).length = cs.length := by
  induction cs generalizing p with
  | nil => rfl
  | cons c rest ih => simp [offsetsFrom, ih]

theorem offsetsFrom_getD (cs : List Nat) :
    ∀ (p k : Nat), k < cs.length →
      (offsetsFrom p cs).getD k 0 = p + (cs.take k).sum := by
  induction cs with
  | nil => intro p k hk; simp at hk
  | cons c rest ih =>
    intro p k hk
    cases k with
    | zero => simp [offsetsFrom]
    | succ k' =>
      have hk' : k' < rest.length := by simpa using hk
      have := ih (p + c) k' hk'
      simp only [offsetsFrom, List.getD_cons_succ, List.take_succ_cons,
        List.sum_cons, this]
      omega

theorem offsetsFrom_le (cs : List Nat) :
    ∀ (p : Nat), ∀ x ∈ offsetsFrom p cs, p ≤ x := by
  induction cs with
  | nil => intro p x hx; simp [offsetsFrom] at hx
  | cons c rest ih =>
    intro p x hx
    simp only [offsetsFrom, List.mem_cons] at hx
    rcases hx with rfl | hx
    · exact le_refl x
    · have := ih (p + c) x hx
      omega

theorem offsetsFrom_pairwise (cs : List Nat) (hpos : ∀ c ∈ cs, 0 < c) :
    ∀ p : Nat, (offsetsFrom p cs).Pairwise (fun a b => a < b) := by
  induction cs with
  | nil => intro p; simp [offsetsFrom]
  | cons c rest ih =>
    intro p
    have hc : 0 < c := hpos c (by simp)
    simp only [offsetsFrom, List.pairwise_cons]
    refine ⟨?_, ih (fun x hx => hpos x (by simp [hx])) (p + c)⟩
    intro x hx
    have := offsetsFrom_le rest (p + c) x hx
    omega

theorem appendTrace_map_offset (s : String) (cs : List Nat) :
    ∀ off : Nat, (appendTrace s off cs).map callOffset = offsetsFrom off cs := by
  induction cs with
  | nil => intro off; rfl
  | cons c rest ih => intro off; simp [appendTrace, offsetsFrom, callOffset, ih]

/-- C2 as a predicate on the model: in a session upload there is exactly one
start call carrying `p` bytes; the offset of the `k`-th append call equals
`p` plus the payloads of the appends before it (bytes sent so far); and the
append offsets are strictly increasing. -/
def C2Spec (env : RemoteEnv) (S : Nat) (fileName : String) : Prop :=
  ∃ p : Nat,
    (uploadToDropbox env S fileName).1.filter isStart =
      [DropboxCall.sessionStart p] ∧
    (∀ k, k < ((uploadToDropbox env S fileName).1.filter isAppend).length →
      (((uploadToDropbox env S fileName).1.filter isAppend).map callOffset).getD k 0 =
        p + ((((uploadToDropbox env S fileName).1.filter isAppend).map
          callPayload).take k).sum) ∧
    ((((uploadToDropbox env S fileName).1.filter isAppend).map callOffset).Pairwise
      (fun a b => a < b))

/-- C2: in every session upload under a successful remote, the `k`-th append
call's offset equals the bytes carried by the start call plus all earlier
append calls, so the offsets are strictly increasing and always equal
bytes-sent-so-far (src/server.js:181-238). -/
theorem c2_append_offsets (env : RemoteEnv) (S : Nat) (fileName : String)
    (hok : ∀ n, env.ok n = true) (hS : CHUNK_SIZE < S) : C2Spec env S fileName := by
  have htr := uploadToDropbox_session_trace env S fileName hok hS
  unfold C2Spec
  rw [htr.1]
  have hA : ((DropboxCall.sessionStart CHUNK_SIZE ::
      appendTrace env.sessionId CHUNK_SIZE (chunks CHUNK_SIZE (S - CHUNK_SIZE))) ++
      [DropboxCall.sessionFinish (some env.sessionId) S (dropboxPathOf fileName)]).filter
        isAppend =
      appendTrace env.sessionId CHUNK_SIZE (chunks CHUNK_SIZE (S - CHUNK_SIZE)) := by
    rw [List.filter_append, filter_append_cons_start,
      appendTrace_filter_append, filter_append_fin, List.append_nil]
  rw [hA]
  refine ⟨CHUNK_SIZE, ?_, ?_, ?_⟩
  · rw [List.filter_append, filter_start_cons_start,
      appendTrace_filter_start, filter_start_fin]
    rfl
  · intro k hk
    rw [appendTrace_length] at hk
    rw [appendTrace_map_offset, appendTrace_map_payload,
      offsetsFrom_getD (chunks CHUNK_SIZE (S - CHUNK_SIZE)) CHUNK_SIZE k hk]
  · rw [appendTrace_map_offset]
    exact offsetsFrom_pairwise (chunks CHUNK_SIZE (S - CHUNK_SIZE))
      (chunks_pos CHUNK_SIZE (S - CHUNK_SIZE)) CHUNK_SIZE

/-! ## Claim C6: hard failure, immediate abort, no retry -/

theorem allOkEnv_sessionId (sid : String) : (allOkEnv sid).sessionId = sid := rfl

theorem allOkEnv_ok (sid : String) (n : Nat) : (allOkEnv sid).ok n = true := rfl

theorem uploadToDropbox_small_trace (env : RemoteEnv) (S : Nat) (fileName : String)
    (hS : S ≤ CHUNK_SIZE) :
    (uploadToDropbox env S fileName).1 =
      [DropboxCall.upload (dropboxPathOf fileName) S] := by
  rw [uploadToDropbox, if_pos hS]
  by_cases h0 : env.ok 0 = true
  · rw [if_pos h0]
  · rw [if_neg h0]

theorem uploadToDropbox_big_error (env : RemoteEnv) (S : Nat) (fileName : String)
    (e : String) (hS : CHUNK_SIZE < S)
    (he : (uploadLoop env (chunks CHUNK_SIZE S) none 0 0).2 = .error e) :
    (uploadToDropbox env S fileName).1 =
      (uploadLoop env (chunks CHUNK_SIZE S) none 0 0).1 ∧
    (uploadToDropbox env S fileName).2 = .error e := by
  have hpair : uploadLoop env (chunks CHUNK_SIZE S) none 0 0 =
      ((uploadLoop env (chunks CHUNK_SIZE S) none 0 0).1,
       (uploadLoop env (chunks CHUNK_SIZE S) none 0 0).2) := rfl
  have key : uploadToDropbox env S fileName =
      ((uploadLoop env (chunks CHUNK_SIZE S) none 0 0).1, .error e) := by
    rw [uploadToDropbox, if_neg (by omega), hpair, he, finishStep]
  exact ⟨by rw [key], by rw [key]⟩

theorem uploadToDropbox_big_ok (env : RemoteEnv) (S : Nat) (fileName : String)
    (sid : Option String) (off : Nat) (hS : CHUNK_SIZE < S)
    (hv : (uploadLoop env (chunks CHUNK_SIZE S) none 0 0).2 = .ok (sid, off)) :
    (uploadToDropbox env S fileName).1 =
      (uploadLoop env (chunks CHUNK_SIZE S) none 0 0).1 ++
        [DropboxCall.sessionFinish sid off (dropboxPathOf fileName)] ∧
    (uploadToDropbox env S fileName).2 =
      (if env.ok (uploadLoop env (chunks CHUNK_SIZE S) none 0 0).1.length
       then .ok () else .error "Erreur finalisation") := by
  have hpair : uploadLoop env (chunks CHUNK_SIZE S) none 0 0 =
      ((uploadLoop env (chunks CHUNK_SIZE S) none 0 0).1,
       (uploadLoop env (chunks CHUNK_SIZE S) none 0 0).2) := rfl
  have key : uploadToDropbox env S fileName =
      (if env.ok (uploadLoop env (chunks CHUNK_SIZE S) none 0 0).1.length then
        ((uploadLoop env (chunks CHUNK_SIZE S) none 0 0).1 ++
          [DropboxCall.sessionFinish sid off (dropboxPathOf fileName)], .ok ())
      else
        ((uploadLoop env (chunks CHUNK_SIZE S) none 0 0).1 ++
          [DropboxCall.sessionFinish sid off (dropboxPathOf fileName)],
         .error "Erreur finalisation")) := by
    rw [uploadToDropbox, if_neg (by omega), hpair, hv, finishStep]
  by_cases hfin : env.ok (uploadLoop env (chunks CHUNK_SIZE S) none 0 0).1.length = true
  · rw [key, if_pos hfin, if_pos hfin]
    exact ⟨rfl, rfl⟩
  · rw [key, if_neg hfin, if_neg hfin]
    exact ⟨rfl, rfl⟩

/-- Any transfer's calls are an initial segment of the calls of the same
transfer against an always-successful remote: no reordering, no retry. -/
theorem uploadToDropbox_prefix (env : RemoteEnv) (S : Nat) (fileName : String) :
    (uploadToDropbox env S fileName).1 <+:
      (uploadToDropbox (allOkEnv env.sessionId) S fileName).1 := by
  by_cases hS : S ≤ CHUNK_SIZE
  · rw [uploadToDropbox_small_trace env S fileName hS,
      uploadToDropbox_small_trace (allOkEnv env.sessionId) S fileName hS]
  · have hS' : CHUNK_SIZE < S := by omega
    have hC : 0 < CHUNK_SIZE := by norm_num [CHUNK_SIZE]
    have hchunks := chunks_of_gt CHUNK_SIZE S hC hS'
    have htrOk := uploadToDropbox_session_trace (allOkEnv env.sessionId) S fileName
      (fun _ => rfl) hS'
    rw [allOkEnv_sessionId] at htrOk
    have hloopOk : (uploadLoop (allOkEnv env.sessionId) (chunks CHUNK_SIZE S) none 0 0).1 =
        DropboxCall.sessionStart CHUNK_SIZE ::
          appendTrace env.sessionId CHUNK_SIZE (chunks CHUNK_SIZE (S - CHUNK_SIZE)) := by
      rw [hchunks, uploadLoop_none (allOkEnv env.sessionId) CHUNK_SIZE _ 0 0
        (fun _ _ => rfl), allOkEnv_sessionId, Nat.zero_add]
    have hpre := uploadLoop_prefix env (chunks CHUNK_SIZE S) none 0 0
    have hsum : CHUNK_SIZE + (chunks CHUNK_SIZE (S - CHUNK_SIZE)).sum = S := by
      have h := chunks_sum CHUNK_SIZE S
      rw [hchunks, List.sum_cons] at h
      exact h
    rcases hres : (uploadLoop env (chunks CHUNK_SIZE S) none 0 0).2 with e | v
    · rw [(uploadToDropbox_big_error env S fileName e hS' hres).1, htrOk.1]
      refine List.IsPrefix.trans ?_ (List.prefix_append _ _)
      rw [← hloopOk]
      exact hpre
    · obtain ⟨sid, off⟩ := v
      have hwin := uploadLoop_ok_all env (chunks CHUNK_SIZE S) none 0 0 (sid, off) hres
      have hloopEnv := uploadLoop_none env CHUNK_SIZE (chunks CHUNK_SIZE (S - CHUNK_SIZE))
        0 0 (by rw [← hchunks]; exact hwin.2)
      rw [← hchunks] at hloopEnv
      have hv2 : (DropboxCall.sessionStart CHUNK_SIZE ::
          appendTrace env.sessionId (0 + CHUNK_SIZE) (chunks CHUNK_SIZE (S - CHUNK_SIZE)),
          (Except.ok (some env.sessionId,
            0 + (CHUNK_SIZE + (chunks CHUNK_SIZE (S - CHUNK_SIZE)).sum)) :
            Except String (Option String × Nat))).2 = .ok (sid, off) := by
        rw [← hloopEnv]
        exact hres
      have hinj := Except.ok.inj hv2
      have hsid : sid = some env.sessionId := (congrArg Prod.fst hinj).symm
      have hoff2 : off = 0 + (CHUNK_SIZE + (chunks CHUNK_SIZE (S - CHUNK_SIZE)).sum) :=
        (congrArg Prod.snd hinj).symm
      have hoff : off = S := by omega
      have hloop1 : (uploadLoop env (chunks CHUNK_SIZE S) none 0 0).1 =
          DropboxCall.sessionStart CHUNK_SIZE ::
            appendTrace env.sessionId CHUNK_SIZE (chunks CHUNK_SIZE (S - CHUNK_SIZE)) := by
        rw [hloopEnv, Nat.zero_add]
      rw [(uploadToDropbox_big_ok env S fileName sid off hS' hres).1, htrOk.1,
        hloop1, hsid, hoff]

/-- C6 as a predicate on the model: every non-final call got a success
status (a failing call is always the last — nothing follows it); a failing
final call fails the whole transfer; success needs every call to have
succeeded; and the calls are an initial segment of the always-successful
run's calls (no retry, no reordering). -/
def C6Spec (env : RemoteEnv) (S : Nat) (fileName : String) : Prop :=
  (∀ j, j + 1 < (uploadToDropbox env S fileName).1.length → env.ok j = true) ∧
  (env.ok ((uploadToDropbox env S fileName).1.length - 1) = false →
    ∃ e, (uploadToDropbox env S fileName).2 = .error e) ∧
  ((uploadToDropbox env S fileName).2 = .ok () →
    ∀ j, j < (uploadToDropbox env S fileName).1.length → env.ok j = true) ∧
  (uploadToDropbox env S fileName).1 <+:
    (uploadToDropbox (allOkEnv env.sessionId) S fileName).1

/-- C6: a non-success status on any call of an upload sequence fails that
call hard and aborts the transfer — no later call of the sequence is made,
success requires every call to succeed, and no call is retried (the issued
calls are a prefix of the all-success sequence) (src/server.js:143-269). -/
theorem c6_abort_no_retry (env : RemoteEnv) (S : Nat) (fileName : String) :
    C6Spec env S fileName := by
  refine ⟨?_, ?_, ?_, uploadToDropbox_prefix env S fileName⟩ <;>
    by_cases hS : S ≤ CHUNK_SIZE
  · intro j hj
    rw [uploadToDropbox_small_trace env S fileName hS] at hj
    simp at hj
  · intro j hj
    have hS' : CHUNK_SIZE < S := by omega
    rcases hres : (uploadLoop env (chunks CHUNK_SIZE S) none 0 0).2 with e | v
    · rw [(uploadToDropbox_big_error env S fileName e hS' hres).1] at hj
      have := uploadLoop_calls_ok env (chunks CHUNK_SIZE S) none 0 0 j hj
      rwa [Nat.zero_add] at this
    · obtain ⟨sid, off⟩ := v
      have hwin := uploadLoop_ok_all env (chunks CHUNK_SIZE S) none 0 0 (sid, off) hres
      rw [(uploadToDropbox_big_ok env S fileName sid off hS' hres).1] at hj
      rw [List.length_append, List.length_cons, List.length_nil] at hj
      have hj' : j < (uploadLoop env (chunks CHUNK_SIZE S) none 0 0).1.length := by
        omega
      rw [hwin.1] at hj'
      have := hwin.2 j hj'
      rwa [Nat.zero_add] at this
  · intro hlast
    rw [uploadToDropbox_small_trace env S fileName hS] at hlast
    rw [List.length_cons, List.length_nil] at hlast
    rw [uploadToDropbox, if_pos hS, if_neg (by rw [hlast]; exact Bool.false_ne_true)]
    exact ⟨"Erreur Dropbox", rfl⟩
  · intro hlast
    have hS' : CHUNK_SIZE < S := by omega
    rcases hres : (uploadLoop env (chunks CHUNK_SIZE S) none 0 0).2 with e | v
    · exact ⟨e, (uploadToDropbox_big_error env S fileName e hS' hres).2⟩
    · obtain ⟨sid, off⟩ := v
      have hbig := uploadToDropbox_big_ok env S fileName sid off hS' hres
      rw [hbig.1, List.length_append, List.length_cons, List.length_nil] at hlast
      have heq : (uploadLoop env (chunks CHUNK_SIZE S) none 0 0).1.length + 1 - 1 =
          (uploadLoop env (chunks CHUNK_SIZE S) none 0 0).1.length := by omega
      rw [heq] at hlast
      refine ⟨"Erreur finalisation", ?_⟩
      rw [hbig.2, if_neg (by rw [hlast]; exact Bool.false_ne_true)]
  · intro hok2 j hj
    rw [uploadToDropbox_small_trace env S fileName hS] at hj
    rw [List.length_cons, List.length_nil] at hj
    have hj0 : j = 0 := by omega
    subst hj0
    by_cases h0 : env.ok 0 = true
    · exact h0
    · rw [uploadToDropbox, if_pos hS, if_neg h0] at hok2
      exact absurd hok2 (by exact fun h => Except.noConfusion h)
  · intro hok2 j hj
    have hS' : CHUNK_SIZE < S := by omega
    rcases hres : (uploadLoop env (chunks CHUNK_SIZE S) none 0 0).2 with e | v
    · rw [(uploadToDropbox_big_error env S fileName e hS' hres).2] at hok2
      exact absurd hok2 (by exact fun h => Except.noConfusion h)
    · obtain ⟨sid, off⟩ := v
      have hwin := uploadLoop_ok_all env (chunks CHUNK_SIZE S) none 0 0 (sid, off) hres
      have hbig := uploadToDropbox_big_ok env S fileName sid off hS' hres
      rw [hbig.1, List.length_append, List.length_cons, List.length_nil] at hj
      by_cases hfin : env.ok (uploadLoop env (chunks CHUNK_SIZE S) none 0 0).1.length = true
      · by_cases hjlen : j < (uploadLoop env (chunks CHUNK_SIZE S) none 0 0).1.length
        · rw [hwin.1] at hjlen
          have := hwin.2 j hjlen
          rwa [Nat.zero_add] at this
        · have hje : j = (uploadLoop env (chunks CHUNK_SIZE S) none 0 0).1.length := by
            omega
          rw [hje]
          exact hfin
      · rw [hbig.2, if_neg hfin] at hok2
        exact absurd hok2 (by exact fun h => Except.noConfusion h)

/-! ## Token manager (`refreshAccessToken`, src/server.js:69-103) -/

/-- The process-wide token cache: the module-level variables `accessToken`
and `tokenExpiry` (src/server.js:23-24), both `null` initially. -/
structure TokenState where
  accessToken : Option String
  tokenExpiry : Option Nat
deriving DecidableEq, Repr

/-- The body the OAuth token endpoint returns: `access_token` (absent or
falsy modelled as `none`) and `expires_in` in seconds (only read when the
token is present, src/server.js:91-93). -/
structure RefreshResponse where
  access_token : Option String
  expires_in : Nat
deriving DecidableEq, Repr

/-- The guard `accessToken && tokenExpiry && now < tokenExpiry`
(src/server.js:71). -/
def cacheValidB (st : TokenState) (now : Nat) : Bool :=
  match st.accessToken, st.tokenExpiry with
  | some _, some exp => now < exp
  | _, _ => false

/-- `refreshAccessToken()` (src/server.js:69-103): `now` is `Date.now()` at
entry, `resp` the token endpoint's response (a network call performed only
when the guard fails).  Returns the new cache state, whether a network call
was made, and the token or the thrown error. -/
def refreshAccessToken (now : Nat) (resp : RefreshResponse) (st : TokenState) :
    TokenState × Bool × Except String String :=
  if cacheValidB st now then
    (st, false, .ok (st.accessToken.getD ""))
  else
    match resp.access_token with
    | some t =>
      (⟨some t, some (now + resp.expires_in * 1000)⟩, true, .ok t)
    | none => (st, true, .error "Impossible d'obtenir le token")

/-- C4: a cached, unexpired token is returned unchanged with no network
call; otherwise a refresh is performed and, on success, the single cached
token and expiry are replaced wholesale, the new expiry being the current
time plus the returned lifetime in seconds (src/server.js:69-103;
`expires_in` seconds become `expires_in * 1000` on the millisecond clock). -/
theorem c4_token_cache (now : Nat) (resp : RefreshResponse) (st : TokenState) :
    (∀ tok exp, st.accessToken = some tok → st.tokenExpiry = some exp →
      now < exp →
      refreshAccessToken now resp st = (st, false, .ok tok)) ∧
    (cacheValidB st now = false → ∀ t, resp.access_token = some t →
      refreshAccessToken now resp st =
        (⟨some t, some (now + resp.expires_in * 1000)⟩, true, .ok t)) := by
  constructor
  · intro tok exp htok hexp hnow
    have hvalid : cacheValidB st now = true := by
      rw [cacheValidB, htok, hexp]
      simpa using hnow
    rw [refreshAccessToken, if_pos hvalid, htok]
    rfl
  · intro hinvalid t ht
    rw [refreshAccessToken, if_neg (by rw [hinvalid]; exact Bool.false_ne_true), ht]

/-- Witness for C4 at a concrete cache and clock: a token cached with expiry
`2000` is returned unchanged at `now = 1000`, and an empty cache at
`now = 1000` with a successful exchange caches the new token until
`1000 + 3600 * 1000`. -/
theorem c4_token_cache_witness :
    refreshAccessToken 1000 ⟨some "new", 3600⟩ ⟨some "tok", some 2000⟩ =
      (⟨some "tok", some 2000⟩, false, .ok "tok") ∧
    refreshAccessToken 1000 ⟨some "new", 3600⟩ ⟨none, none⟩ =
      (⟨some "new", some (1000 + 3600 * 1000)⟩, true, .ok "new") :=
  ⟨(c4_token_cache 1000 ⟨some "new", 3600⟩ ⟨some "tok", some 2000⟩).1 "tok" 2000
      rfl rfl (by omega),
   (c4_token_cache 1000 ⟨some "new", 3600⟩ ⟨none, none⟩).2 rfl "new" rfl⟩

/-- Refresh helper: cached, unexpired token (src/server.js:71-73). -/
theorem refreshAccessToken_cached (now : Nat) (resp : RefreshResponse)
    (st : TokenState) (tok : String) (exp : Nat)
    (htok : st.accessToken = some tok) (hexp : st.tokenExpiry = some exp)
    (hnow : now < exp) :
    refreshAccessToken now resp st = (st, false, .ok tok) := by
  have hvalid : cacheValidB st now = true := by
    rw [cacheValidB, htok, hexp]
    simpa using hnow
  rw [refreshAccessToken, if_pos hvalid, htok]
  rfl

/-- Refresh helper: successful exchange replaces the cache wholesale
(src/server.js:91-95). -/
theorem refreshAccessToken_success (now : Nat) (resp : RefreshResponse)
    (st : TokenState) (t : String)
    (hinv : cacheValidB st now = false) (ht : resp.access_token = some t) :
    refreshAccessToken now resp st =
      (⟨some t, some (now + resp.expires_in * 1000)⟩, true, .ok t) := by
  rw [refreshAccessToken, if_neg (by rw [hinv]; exact Bool.false_ne_true), ht]

/-- Refresh helper: a response without `access_token` throws and leaves the
cache untouched (src/server.js:96-98). -/
theorem refreshAccessToken_fail (now : Nat) (resp : RefreshResponse)
    (st : TokenState)
    (hinv : cacheValidB st now = false) (hnone : resp.access_token = none) :
    refreshAccessToken now resp st =
      (st, true, .error "Impossible d'obtenir le token") := by
  rw [refreshAccessToken, if_neg (by rw [hinv]; exact Bool.false_ne_true), hnone]

/-! ## Relay orchestrator (`app.post("/upload")`, src/server.js:272-372) -/

/-- One staged uploaded file as multer leaves it: disk path, original name,
size in bytes (src/server.js:47-58, 310-313, 363). -/
structure FileInfo where
  path : String
  originalname : String
  size : Nat
deriving DecidableEq, Repr

def pad2 (n : Nat) : String := if n < 10 then "0" ++ toString n else toString n

def pad4 (n : Nat) : String :=
  if n < 10 then "000" ++ toString n
  else if n < 100 then "00" ++ toString n
  else if n < 1000 then "0" ++ toString n
  else toString n

/-- The date part of `date.toISOString()` with the dashes removed
(src/server.js:290): the current UTC date formatted `YYYYMMDD`. -/
def dateCompact (y m d : Nat) : String := pad4 y ++ pad2 m ++ pad2 d

/-- `${dateStr}_${nom}_${prenom}_${morceau}.zip` (src/server.js:291-294) with
`nom = field1 || "inconnu"`, `prenom = field2 || "inconnu"`,
`morceau = field5 || "projet"`; a missing or falsy form field is `none`. -/
def buildArchiveName (dstr : String) (form : Nat → Option String) : String :=
  dstr ++ "_" ++ (form 1).getD "inconnu" ++ "_" ++ (form 2).getD "inconnu" ++
    "_" ++ (form 5).getD "projet" ++ ".zip"

/-- `if (fs.existsSync(p)) fs.unlinkSync(p)` (src/server.js:347-349,352-354):
the filesystem is the list of existing paths; unlinking removes the path. -/
def unlinkIfExists (p : String) (fs : List String) : List String :=
  fs.filter (fun q => q ≠ p)

/-- The cleanup block (src/server.js:344-354): unlink each listed path. -/
def cleanupFiles (paths : List String) (fs : List String) : List String :=
  paths.foldl (fun acc p => unlinkIfExists p acc) fs

/-- The per-request environment of one `POST /upload`: the staged files, the
form fields (`field1` .. `field12`, by index), the clock, the current UTC
date, the token endpoint's response, the archiver's outcome, the produced
archive's size, and the Dropbox remote. -/
structure RelayInput where
  files : List FileInfo
  form : Nat → Option String
  nowMs : Nat
  year : Nat
  month : Nat
  day : Nat
  resp : RefreshResponse
  archiveRes : Except String Unit
  archiveSize : Nat
  env : RemoteEnv

/-- The JSON body `res.json(...)` sends (src/server.js:281-282, 358-364,
367-370): fields absent from a branch are `none`. -/
structure ResponseBody where
  success : Bool
  message : String
  archiveName : Option String
  filesCount : Option Nat
  totalSize : Option Nat
deriving DecidableEq, Repr

/-- Everything observable about one handled request: HTTP status and body,
the token cache afterwards, the filesystem afterwards, whether the token
endpoint was called, whether archive production started, and the Dropbox
calls issued. -/
structure RouteResult where
  status : Nat
  body : ResponseBody
  tokenState : TokenState
  fsAfter : List String
  refreshCalled : Bool
  archiveStarted : Bool
  uploadCalls : List DropboxCall

def relayArchiveName (inp : RelayInput) : String :=
  buildArchiveName (dateCompact inp.year inp.month inp.day) inp.form

def relayArchivePath (inp : RelayInput) : String :=
  "./uploads/" ++ relayArchiveName inp

/-- The `app.post("/upload")` handler (src/server.js:272-372): reject an
empty file set with 400; refresh the token; create the archive file and run
the archiver; upload to Dropbox; on success unlink every staged file and the
archive and answer 200; any thrown error lands in the catch block and
answers 500 with the error's message. -/
def handleUpload (inp : RelayInput) (st : TokenState) (fs : List String) :
    RouteResult :=
  if inp.files.isEmpty then
    { status := 400,
      body := ⟨false, "Aucun fichier uploadé", none, none, none⟩,
      tokenState := st, fsAfter := fs, refreshCalled := false,
      archiveStarted := false, uploadCalls := [] }
  else
    match (refreshAccessToken inp.nowMs inp.resp st).2.2 with
    | .error e =>
      { status := 500, body := ⟨false, e, none, none, none⟩,
        tokenState := (refreshAccessToken inp.nowMs inp.resp st).1,
        fsAfter := fs,
        refreshCalled := (refreshAccessToken inp.nowMs inp.resp st).2.1,
        archiveStarted := false, uploadCalls := [] }
    | .ok _ =>
      match inp.archiveRes with
      | .error e =>
        { status := 500, body := ⟨false, e, none, none, none⟩,
          tokenState := (refreshAccessToken inp.nowMs inp.resp st).1,
          fsAfter := relayArchivePath inp :: fs,
          refreshCalled := (refreshAccessToken inp.nowMs inp.resp st).2.1,
          archiveStarted := true, uploadCalls := [] }
      | .ok _ =>
        match (uploadToDropbox inp.env inp.archiveSize (relayArchiveName inp)).2 with
        | .error e =>
          { status := 500, body := ⟨false, e, none, none, none⟩,
            tokenState := (refreshAccessToken inp.nowMs inp.resp st).1,
            fsAfter := relayArchivePath inp :: fs,
            refreshCalled := (refreshAccessToken inp.nowMs inp.resp st).2.1,
            archiveStarted := true,
            uploadCalls :=
              (uploadToDropbox inp.env inp.archiveSize (relayArchiveName inp)).1 }
        | .ok _ =>
          { status := 200,
            body := ⟨true, "Upload réussi", some (relayArchiveName inp),
                     some inp.files.length, some ((inp.files.map (·.size)).sum)⟩,
            tokenState := (refreshAccessToken inp.nowMs inp.resp st).1,
            fsAfter := cleanupFiles
              (inp.files.map (·.path) ++ [relayArchivePath inp])
              (relayArchivePath inp :: fs),
            refreshCalled := (refreshAccessToken inp.nowMs inp.resp st).2.1,
            archiveStarted := true,
            uploadCalls :=
              (uploadToDropbox inp.env inp.archiveSize (relayArchiveName inp)).1 }

/-! ### Branch characterisations of `handleUpload` -/

theorem handleUpload_empty (inp : RelayInput) (st : TokenState)
    (fs : List String) (h : inp.files = []) :
    handleUpload inp st fs =
      { status := 400,
        body := ⟨false, "Aucun fichier uploadé", none, none, none⟩,
        tokenState := st, fsAfter := fs, refreshCalled := false,
        archiveStarted := false, uploadCalls := [] } := by
  rw [handleUpload, if_pos (by rw [h]; rfl)]

theorem handleUpload_auth_error (inp : RelayInput) (st : TokenState)
    (fs : List String) (e : String) (hne : inp.files ≠ [])
    (he : (refreshAccessToken inp.nowMs inp.resp st).2.2 = .error e) :
    handleUpload inp st fs =
      { status := 500, body := ⟨false, e, none, none, none⟩,
        tokenState := (refreshAccessToken inp.nowMs inp.resp st).1,
        fsAfter := fs,
        refreshCalled := (refreshAccessToken inp.nowMs inp.resp st).2.1,
        archiveStarted := false, uploadCalls := [] } := by
  rw [handleUpload, if_neg (by rw [List.isEmpty_iff]; exact hne), he]

theorem handleUpload_archive_error (inp : RelayInput) (st : TokenState)
    (fs : List String) (tok e : String) (hne : inp.files ≠ [])
    (hok : (refreshAccessToken inp.nowMs inp.resp st).2.2 = .ok tok)
    (hae : inp.archiveRes = .error e) :
    handleUpload inp st fs =
      { status := 500, body := ⟨false, e, none, none, none⟩,
        tokenState := (refreshAccessToken inp.nowMs inp.resp st).1,
        fsAfter := relayArchivePath inp :: fs,
        refreshCalled := (refreshAccessToken inp.nowMs inp.resp st).2.1,
        archiveStarted := true, uploadCalls := [] } := by
  rw [handleUpload, if_neg (by rw [List.isEmpty_iff]; exact hne), hok, hae]

theorem handleUpload_upload_error (inp : RelayInput) (st : TokenState)
    (fs : List String) (tok e : String) (hne : inp.files ≠ [])
    (hok : (refreshAccessToken inp.nowMs inp.resp st).2.2 = .ok tok)
    (haok : inp.archiveRes = .ok ())
    (hue : (uploadToDropbox inp.env inp.archiveSize (relayArchiveName inp)).2 =
      .error e) :
    handleUpload inp st fs =
      { status := 500, body := ⟨false, e, none, none, none⟩,
        tokenState := (refreshAccessToken inp.nowMs inp.resp st).1,
        fsAfter := relayArchivePath inp :: fs,
        refreshCalled := (refreshAccessToken inp.nowMs inp.resp st).2.1,
        archiveStarted := true,
        uploadCalls :=
          (uploadToDropbox inp.env inp.archiveSize (relayArchiveName inp)).1 } := by
  rw [handleUpload, if_neg (by rw [List.isEmpty_iff]; exact hne), hok, haok, hue]

theorem handleUpload_success (inp : RelayInput) (st : TokenState)
    (fs : List String) (tok : String) (hne : inp.files ≠ [])
    (hok : (refreshAccessToken inp.nowMs inp.resp st).2.2 = .ok tok)
    (haok : inp.archiveRes = .ok ())
    (huok : (uploadToDropbox inp.env inp.archiveSize (relayArchiveName inp)).2 =
      .ok ()) :
    handleUpload inp st fs =
      { status := 200,
        body := ⟨true, "Upload réussi", some (relayArchiveName inp),
                 some inp.files.length, some ((inp.files.map (·.size)).sum)⟩,
        tokenState := (refreshAccessToken inp.nowMs inp.resp st).1,
        fsAfter := cleanupFiles
          (inp.files.map (·.path) ++ [relayArchivePath inp])
          (relayArchivePath inp :: fs),
        refreshCalled := (refreshAccessToken inp.nowMs inp.resp st).2.1,
        archiveStarted := true,
        uploadCalls :=
          (uploadToDropbox inp.env inp.archiveSize (relayArchiveName inp)).1 } := by
  rw [handleUpload, if_neg (by rw [List.isEmpty_iff]; exact hne), hok, haok, huok]

/-! ### Cleanup lemmas -/

theorem not_mem_unlinkIfExists_self (p : String) (fs : List String) :
    p ∉ unlinkIfExists p fs := by
  intro h
  rw [unlinkIfExists] at h
  have := List.of_mem_filter h
  simp at this

theorem not_mem_unlinkIfExists (p q : String) (fs : List String)
    (h : p ∉ fs) : p ∉ unlinkIfExists q fs := by
  intro hc
  exact h (List.mem_of_mem_filter hc)

theorem not_mem_cleanupFiles_of_not_mem (paths : List String) :
    ∀ (p : String) (fs : List String), p ∉ fs → p ∉ cleanupFiles paths fs := by
  induction paths with
  | nil => intro p fs h; exact h
  | cons q rest ih =>
    intro p fs h
    exact ih p (unlinkIfExists q fs) (not_mem_unlinkIfExists p q fs h)

theorem not_mem_cleanupFiles_of_mem (paths : List String) :
    ∀ (p : String) (fs : List String), p ∈ paths → p ∉ cleanupFiles paths fs := by
  induction paths with
  | nil => intro p fs h; exact absurd h (List.not_mem_nil p)
  | cons q rest ih =>
    intro p fs h
    rcases List.mem_cons.mp h with rfl | hmem
    · exact not_mem_cleanupFiles_of_not_mem rest p (unlinkIfExists p fs)
        (not_mem_unlinkIfExists_self p fs)
    · exact ih p (unlinkIfExists q fs) hmem

theorem handleUpload_token_fields (inp : RelayInput) (st : TokenState)
    (fs : List String) (hne : inp.files ≠ []) :
    (handleUpload inp st fs).tokenState =
      (refreshAccessToken inp.nowMs inp.resp st).1 ∧
    (handleUpload inp st fs).refreshCalled =
      (refreshAccessToken inp.nowMs inp.resp st).2.1 := by
  rcases hres : (refreshAccessToken inp.nowMs inp.resp st).2.2 with e | tok
  · rw [handleUpload_auth_error inp st fs e hne hres]
    exact ⟨rfl, rfl⟩
  · rcases hare : inp.archiveRes with e | u
    · rw [handleUpload_archive_error inp st fs tok e hne hres hare]
      exact ⟨rfl, rfl⟩
    · cases u
      rcases hue : (uploadToDropbox inp.env inp.archiveSize (relayArchiveName inp)).2
        with e | v
      · rw [handleUpload_upload_error inp st fs tok e hne hres hare hue]
        exact ⟨rfl, rfl⟩
      · cases v
        rw [handleUpload_success inp st fs tok hne hres hare hue]
        exact ⟨rfl, rfl⟩

/-! ## The claims about the orchestrator -/

/-- C7: a request with no input files fails immediately with status 400 and
the no-input message, and neither a token refresh nor any archive or upload
work is attempted — cache and filesystem untouched (src/server.js:279-283). -/
theorem c7_empty_input (inp : RelayInput) (st : TokenState) (fs : List String)
    (h : inp.files = []) :
    handleUpload inp st fs =
      { status := 400,
        body := ⟨false, "Aucun fichier uploadé", none, none, none⟩,
        tokenState := st, fsAfter := fs, refreshCalled := false,
        archiveStarted := false, uploadCalls := [] } :=
  handleUpload_empty inp st fs h

def emptyInput : RelayInput :=
  { files := [], form := fun _ => none, nowMs := 0, year := 2026, month := 10,
    day := 11, resp := ⟨none, 0⟩, archiveRes := .ok (), archiveSize := 0,
    env := ⟨fun _ => true, "sid"⟩ }

/-- Witness for C7: a concrete empty request answers 400 untouched. -/
theorem c7_empty_input_witness :
    handleUpload emptyInput ⟨none, none⟩ ["./uploads/x"] =
      { status := 400,
        body := ⟨false, "Aucun fichier uploadé", none, none, none⟩,
        tokenState := ⟨none, none⟩, fsAfter := ["./uploads/x"],
        refreshCalled := false, archiveStarted := false, uploadCalls := [] } :=
  c7_empty_input emptyInput ⟨none, none⟩ ["./uploads/x"] rfl

/-- C5: when the cache is invalid and the token endpoint's response carries
no `access_token`, the relay fails with status 500 and the authentication
error message, the cached token and expiry are unchanged, and no archive or
upload work happens (src/server.js:89-102, 287-299). -/
theorem c5_auth_failure (inp : RelayInput) (st : TokenState) (fs : List String)
    (hne : inp.files ≠ [])
    (hinv : cacheValidB st inp.nowMs = false)
    (hnone : inp.resp.access_token = none) :
    handleUpload inp st fs =
      { status := 500,
        body := ⟨false, "Impossible d'obtenir le token", none, none, none⟩,
        tokenState := st, fsAfter := fs, refreshCalled := true,
        archiveStarted := false, uploadCalls := [] } := by
  have href := refreshAccessToken_fail inp.nowMs inp.resp st hinv hnone
  have h2 : (refreshAccessToken inp.nowMs inp.resp st).2.2 =
      .error "Impossible d'obtenir le token" := by rw [href]
  rw [handleUpload_auth_error inp st fs _ hne h2, href]

def c5Input : RelayInput :=
  { files := [⟨"./uploads/1_a.wav", "a.wav", 10⟩], form := fun _ => none,
    nowMs := 0, year := 2026, month := 10, day := 11, resp := ⟨none, 0⟩,
    archiveRes := .ok (), archiveSize := 10, env := ⟨fun _ => true, "sid"⟩ }

/-- Witness for C5: a concrete failed refresh answers 500 with the auth
error, untouched cache and filesystem, no archive or upload work. -/
theorem c5_auth_failure_witness :
    handleUpload c5Input ⟨none, none⟩ [] =
      { status := 500,
        body := ⟨false, "Impossible d'obtenir le token", none, none, none⟩,
        tokenState := ⟨none, none⟩, fsAfter := [], refreshCalled := true,
        archiveStarted := false, uploadCalls := [] } :=
  c5_auth_failure c5Input ⟨none, none⟩ [] (by decide) rfl rfl

def c3Input : RelayInput :=
  { files := [⟨"./uploads/1_a.wav", "a.wav", 10⟩], form := fun _ => none,
    nowMs := 0, year := 2026, month := 10, day := 11,
    resp := ⟨some "tok", 14400⟩, archiveRes := .ok (), archiveSize := 10,
    env := ⟨fun _ => false, "sid"⟩ }

/-- Counterexample to C3 as stated: a validated request whose upload call
fails returns (status 500) with the staged input file still on disk — the
cleanup block (src/server.js:344-354) sits on the success path of the `try`,
so no deletion is attempted on failure. -/
theorem c3_counterexample :
    (handleUpload c3Input ⟨none, none⟩ ["./uploads/1_a.wav"]).status = 500 ∧
    "./uploads/1_a.wav" ∈
      (handleUpload c3Input ⟨none, none⟩ ["./uploads/1_a.wav"]).fsAfter := by
  decide

/-- C3 amended: cleanup of the staged inputs and the archive happens only
when every step succeeded; when the relay succeeds, every staged input path
and the archive path are removed, and when it fails, nothing is deleted —
every pre-existing path is still present (src/server.js:344-371). -/
theorem c3_cleanup_only_on_success (inp : RelayInput) (st : TokenState)
    (fs : List String) :
    ((handleUpload inp st fs).status = 200 →
      (∀ f, f ∈ inp.files → f.path ∉ (handleUpload inp st fs).fsAfter) ∧
      relayArchivePath inp ∉ (handleUpload inp st fs).fsAfter) ∧
    ((handleUpload inp st fs).status ≠ 200 →
      ∀ p, p ∈ fs → p ∈ (handleUpload inp st fs).fsAfter) := by
  by_cases hemp : inp.files = []
  · rw [handleUpload_empty inp st fs hemp]
    exact ⟨fun h => absurd (show (400 : Nat) = 200 from h) (by omega),
      fun _ p hp => hp⟩
  · rcases hres : (refreshAccessToken inp.nowMs inp.resp st).2.2 with e | tok
    · rw [handleUpload_auth_error inp st fs e hemp hres]
      exact ⟨fun h => absurd (show (500 : Nat) = 200 from h) (by omega),
        fun _ p hp => hp⟩
    · rcases hare : inp.archiveRes with e | u
      · rw [handleUpload_archive_error inp st fs tok e hemp hres hare]
        exact ⟨fun h => absurd (show (500 : Nat) = 200 from h) (by omega),
          fun _ p hp => List.mem_cons_of_mem _ hp⟩
      · cases u
        rcases hue : (uploadToDropbox inp.env inp.archiveSize
            (relayArchiveName inp)).2 with e | v
        · rw [handleUpload_upload_error inp st fs tok e hemp hres hare hue]
          exact ⟨fun h => absurd (show (500 : Nat) = 200 from h) (by omega),
            fun _ p hp => List.mem_cons_of_mem _ hp⟩
        · cases v
          rw [handleUpload_success inp st fs tok hemp hres hare hue]
          refine ⟨fun _ => ⟨?_, ?_⟩, fun h => absurd rfl h⟩
          · intro f hf
            apply not_mem_cleanupFiles_of_mem
            exact List.mem_append_left _ (List.mem_map_of_mem _ hf)
          · apply not_mem_cleanupFiles_of_mem
            exact List.mem_append_right _ (List.mem_singleton_self _)

def okEnv : RemoteEnv := ⟨fun _ => true, "sid"⟩

def c3OkInput : RelayInput :=
  { files := [⟨"./uploads/1_a.wav", "a.wav", 10⟩], form := fun _ => none,
    nowMs := 0, year := 2026, month := 10, day := 11,
    resp := ⟨some "tok", 14400⟩, archiveRes := .ok (), archiveSize := 10,
    env := okEnv }

/-- Witness for the amended C3: on a concrete fully successful relay the
staged input is gone afterwards. -/
theorem c3_cleanup_witness :
    "./uploads/1_a.wav" ∉
      (handleUpload c3OkInput ⟨none, none⟩ ["./uploads/1_a.wav"]).fsAfter :=
  ((c3_cleanup_only_on_success c3OkInput ⟨none, none⟩ ["./uploads/1_a.wav"]).1
    (by decide)).1 ⟨"./uploads/1_a.wav", "a.wav", 10⟩ (by decide)

/-- Counterexample to C8 as stated: no choice of two form fields determines
the archive name — for every pair of indices there are two forms agreeing on
that pair yet producing different names, because the name reads three fields
(`field1`, `field2`, `field5`, src/server.js:291-294). -/
theorem c8_counterexample :
    ¬ ∃ i j : Nat, ∀ f g : Nat → Option String,
      f i = g i → f j = g j →
      buildArchiveName "20261011" f = buildArchiveName "20261011" g := by
  rintro ⟨i, j, h⟩
  by_cases h1 : i = 1 ∨ j = 1
  · by_cases h2 : i = 2 ∨ j = 2
    · have hi5 : i ≠ 5 := by omega
      have hj5 : j ≠ 5 := by omega
      have key := h (fun _ => none) (fun n => if n = 5 then some "x" else none)
        (by simp [hi5]) (by simp [hj5])
      exact absurd key (by decide)
    · push_neg at h2
      have key := h (fun _ => none) (fun n => if n = 2 then some "x" else none)
        (by simp [h2.1]) (by simp [h2.2])
      exact absurd key (by decide)
  · push_neg at h1
    have key := h (fun _ => none) (fun n => if n = 1 then some "x" else none)
      (by simp [h1.1]) (by simp [h1.2])
    exact absurd key (by decide)

/-- C8 amended: the destination name is deterministic in the UTC date and
exactly three form fields — it depends on `field1`, `field2` and `field5`
only (forms agreeing there give equal names), each of the three genuinely
matters, and a successful relay reports exactly that name with the fixed
`.zip` extension (src/server.js:289-295). -/
theorem c8_name_three_fields :
    (∀ (d : String) (f g : Nat → Option String),
      f 1 = g 1 → f 2 = g 2 → f 5 = g 5 →
      buildArchiveName d f = buildArchiveName d g) ∧
    (∀ (inp : RelayInput) (st : TokenState) (fs : List String),
      (handleUpload inp st fs).status = 200 →
      (handleUpload inp st fs).body.archiveName =
        some (buildArchiveName (dateCompact inp.year inp.month inp.day) inp.form)) ∧
    buildArchiveName "20261011" (fun n => if n = 1 then some "x" else none) ≠
      buildArchiveName "20261011" (fun _ => none) ∧
    buildArchiveName "20261011" (fun n => if n = 2 then some "x" else none) ≠
      buildArchiveName "20261011" (fun _ => none) ∧
    buildArchiveName "20261011" (fun n => if n = 5 then some "x" else none) ≠
      buildArchiveName "20261011" (fun _ => none) := by
  refine ⟨?_, ?_, by decide, by decide, by decide⟩
  · intro d f g h1 h2 h5
    rw [buildArchiveName, buildArchiveName, h1, h2, h5]
  · intro inp st fs hs
    by_cases hemp : inp.files = []
    · rw [handleUpload_empty inp st fs hemp] at hs
      exact absurd (show (400 : Nat) = 200 from hs) (by omega)
    · rcases hres : (refreshAccessToken inp.nowMs inp.resp st).2.2 with e | tok
      · rw [handleUpload_auth_error inp st fs e hemp hres] at hs
        exact absurd (show (500 : Nat) = 200 from hs) (by omega)
      · rcases hare : inp.archiveRes with e | u
        · rw [handleUpload_archive_error inp st fs tok e hemp hres hare] at hs
          exact absurd (show (500 : Nat) = 200 from hs) (by omega)
        · cases u
          rcases hue : (uploadToDropbox inp.env inp.archiveSize
              (relayArchiveName inp)).2 with e | v
          · rw [handleUpload_upload_error inp st fs tok e hemp hres hare hue] at hs
            exact absurd (show (500 : Nat) = 200 from hs) (by omega)
          · cases v
            rw [handleUpload_success inp st fs tok hemp hres hare hue]
            rfl

/-- Witness for the amended C8: a form setting only `field3` produces the
same name as the empty form (the name does not read `field3`). -/
theorem c8_name_witness :
    buildArchiveName "20261011" (fun n => if n = 3 then some "mail" else none) =
      buildArchiveName "20261011" (fun _ => none) :=
  c8_name_three_fields.1 "20261011" _ _ rfl rfl rfl

/-- C9: across two consecutive relay operations where the first refreshes
successfully and the second starts strictly before the cached expiry,
exactly one token-endpoint exchange happens in total (src/server.js:69-103,
287). -/
theorem c9_token_reuse (inp1 inp2 : RelayInput) (st0 : TokenState)
    (fs1 fs2 : List String) (t : String)
    (h1 : inp1.files ≠ []) (h2 : inp2.files ≠ [])
    (hinv : cacheValidB st0 inp1.nowMs = false)
    (ht : inp1.resp.access_token = some t)
    (hwin : inp2.nowMs < inp1.nowMs + inp1.resp.expires_in * 1000) :
    ((if (handleUpload inp1 st0 fs1).refreshCalled then 1 else 0) +
     (if (handleUpload inp2 (handleUpload inp1 st0 fs1).tokenState fs2).refreshCalled
      then 1 else 0) : Nat) = 1 := by
  have hr1 := refreshAccessToken_success inp1.nowMs inp1.resp st0 t hinv ht
  have hf1 := handleUpload_token_fields inp1 st0 fs1 h1
  have hst1 : (handleUpload inp1 st0 fs1).tokenState =
      ⟨some t, some (inp1.nowMs + inp1.resp.expires_in * 1000)⟩ := by
    rw [hf1.1, hr1]
  have hrc1 : (handleUpload inp1 st0 fs1).refreshCalled = true := by
    rw [hf1.2, hr1]
  have hr2 := refreshAccessToken_cached inp2.nowMs inp2.resp
    (⟨some t, some (inp1.nowMs + inp1.resp.expires_in * 1000)⟩ : TokenState)
    t (inp1.nowMs + inp1.resp.expires_in * 1000) rfl rfl hwin
  have hf2 := handleUpload_token_fields inp2 (handleUpload inp1 st0 fs1).tokenState
    fs2 h2
  have hrc2 : (handleUpload inp2 (handleUpload inp1 st0 fs1).tokenState
      fs2).refreshCalled = false := by
    rw [hf2.2, hst1, hr2]
  rw [hrc1, hrc2]
  rfl

def c9Input1 : RelayInput :=
  { files := [⟨"./uploads/1_a.wav", "a.wav", 10⟩], form := fun _ => none,
    nowMs := 1000, year := 2026, month := 10, day := 11,
    resp := ⟨some "tok", 14400⟩, archiveRes := .ok (), archiveSize := 10,
    env := okEnv }

def c9Input2 : RelayInput :=
  { files := [⟨"./uploads/2_b.wav", "b.wav", 20⟩], form := fun _ => none,
    nowMs := 2000, year := 2026, month := 10, day := 11,
    resp := ⟨some "other", 3600⟩, archiveRes := .ok (), archiveSize := 20,
    env := okEnv }

/-- Witness for C9: two concrete back-to-back relays at `now = 1000` and
`now = 2000` with a 14400-second token lifetime refresh exactly once. -/
theorem c9_token_reuse_witness :
    ((if (handleUpload c9Input1 ⟨none, none⟩ []).refreshCalled then 1 else 0) +
     (if (handleUpload c9Input2
        (handleUpload c9Input1 ⟨none, none⟩ []).tokenState []).refreshCalled
      then 1 else 0) : Nat) = 1 :=
  c9_token_reuse c9Input1 c9Input2 ⟨none, none⟩ [] [] "tok" (by decide) (by decide)
    rfl rfl (by decide)

/-- C10: the request-outcome mapping — empty input gives 400 with
`success:false` and the fixed message; a failure of the token refresh, the
archiver or any Dropbox call gives 500 with `success:false` and that error's
message; success gives 200 with `success:true`, the archive name, the number
of input files and the summed input size (src/server.js:279-283, 356-371). -/
theorem c10_outcome_mapping (inp : RelayInput) (st : TokenState)
    (fs : List String) :
    (inp.files = [] →
      (handleUpload inp st fs).status = 400 ∧
      (handleUpload inp st fs).body =
        ⟨false, "Aucun fichier uploadé", none, none, none⟩) ∧
    (inp.files ≠ [] →
      (∀ e, (refreshAccessToken inp.nowMs inp.resp st).2.2 = .error e →
        (handleUpload inp st fs).status = 500 ∧
        (handleUpload inp st fs).body = ⟨false, e, none, none, none⟩) ∧
      (∀ tok, (refreshAccessToken inp.nowMs inp.resp st).2.2 = .ok tok →
        (∀ e, inp.archiveRes = .error e →
          (handleUpload inp st fs).status = 500 ∧
          (handleUpload inp st fs).body = ⟨false, e, none, none, none⟩) ∧
        (inp.archiveRes = .ok () →
          (∀ e, (uploadToDropbox inp.env inp.archiveSize
              (relayArchiveName inp)).2 = .error e →
            (handleUpload inp st fs).status = 500 ∧
            (handleUpload inp st fs).body = ⟨false, e, none, none, none⟩) ∧
          ((uploadToDropbox inp.env inp.archiveSize
              (relayArchiveName inp)).2 = .ok () →
            (handleUpload inp st fs).status = 200 ∧
            (handleUpload inp st fs).body =
              ⟨true, "Upload réussi", some (relayArchiveName inp),
               some inp.files.length,
               some ((inp.files.map (·.size)).sum)⟩)))) := by
  refine ⟨fun h => ?_, fun hne => ⟨fun e he => ?_, fun tok htok =>
    ⟨fun e hae => ?_, fun haok => ⟨fun e hue => ?_, fun huok => ?_⟩⟩⟩⟩
  · rw [handleUpload_empty inp st fs h]
    exact ⟨rfl, rfl⟩
  · rw [handleUpload_auth_error inp st fs e hne he]
    exact ⟨rfl, rfl⟩
  · rw [handleUpload_archive_error inp st fs tok e hne htok hae]
    exact ⟨rfl, rfl⟩
  · rw [handleUpload_upload_error inp st fs tok e hne htok haok hue]
    exact ⟨rfl, rfl⟩
  · rw [handleUpload_success inp st fs tok hne htok haok huok]
    exact ⟨rfl, rfl⟩

/-- Witness for C10 at a concrete fully successful request: 200 with the
success body. -/
theorem c10_outcome_witness :
    (handleUpload c3OkInput ⟨none, none⟩ []).status = 200 ∧
    (handleUpload c3OkInput ⟨none, none⟩ []).body =
      ⟨true, "Upload réussi", some (relayArchiveName c3OkInput),
       some c3OkInput.files.length,
       some ((c3OkInput.files.map (·.size)).sum)⟩ :=
  ((((c10_outcome_mapping c3OkInput ⟨none, none⟩ []).2 (by decide)).2
    "tok" rfl).2 rfl).2 rfl

/-! ## Witnesses for the transfer-engine claims -/

/-- Witness for C1: the 250 MiB scenario against an all-success remote —
session path with one start, two appends, finish at offset 250 MiB. -/
theorem c1_upload_call_counts_witness :
    C1Spec okEnv (250 * 1024 * 1024) "projet.zip" :=
  c1_upload_call_counts okEnv (250 * 1024 * 1024) "projet.zip" (fun _ => rfl)

/-- Witness for C2: the 250 MiB scenario — append offsets are the running
byte counts and strictly increase. -/
theorem c2_append_offsets_witness :
    C2Spec okEnv (250 * 1024 * 1024) "projet.zip" :=
  c2_append_offsets okEnv (250 * 1024 * 1024) "projet.zip" (fun _ => rfl)
    (by norm_num [CHUNK_SIZE])

def failEnv : RemoteEnv := ⟨fun _ => false, "sid"⟩

/-- Witness for C6: against a remote that always answers non-success, a
small transfer's single (hence last) call failing makes the transfer fail. -/
theorem c6_abort_no_retry_witness :
    ∃ e, (uploadToDropbox failEnv 5 "a.zip").2 = .error e :=
  (c6_abort_no_retry failEnv 5 "a.zip").2.1 rfl

end UploadRelay